import Mathlib

/-!
Shallow embedding of `src/programmierwettbewerb_wer_liefert_am_schnellsten.py`.

The program queries package repositories (ArchLinux, Debian, Fedora, FlatHub),
extracts a version string and a last-update date from each response (JSON field
lookup or regex match over the HTML body), and prints a fixed-width table.

Modelling conventions:
* Response bodies are `List Char` (the Python code works on `bytes`; every
  pattern involved is ASCII, and `bytes.decode()` is modelled as `String.mk`).
* The network fetcher `_url_content` is an external collaborator; each variant
  update takes its fetch result as an argument (`none` = no content, i.e. an
  HTTP error status or a transport failure).  For the ArchLinux variant the
  code immediately feeds the body to `json.loads`, so its update takes the
  parsed document (`Option Json`).
* Python exceptions are modelled with `Except PyError`: an update that raises
  propagates the error (the Python exception escapes `__init__` and `main`).
* Python `re.search` with the patterns used here (a literal prefix, a lazy
  group `(.*?)` of non-newline characters, a literal suffix; and the FlatHub
  date pattern with bounded digit groups) is modelled by executable searchers
  (`reSearch`, `dateSearch`) implementing the leftmost-match, lazy/greedy
  backtracking semantics of those pattern shapes.  Interpolated values
  (`self.name`, `self.distro_release`) are treated as literal text; theorems
  that quantify over them carry a `regexSafe` hypothesis stating that they
  contain no regex metacharacters, which is the condition under which this is
  faithful to the unescaped Python f-string patterns.
-/

/-- Python exceptions that the embedded code can raise. -/
inductive PyError where
  | keyError
  | typeError
  | attributeError
deriving DecidableEq

/-- JSON documents, as produced by `json.loads`. -/
inductive Json where
  | null
  | bool (b : Bool)
  | num (n : Int)
  | str (s : String)
  | arr (xs : List Json)
  | obj (kvs : List (String × Json))

/-- Lookup in a JSON object, as Python dict indexing after `json.loads`
(on duplicate keys the last occurrence wins, hence the `reverse`). -/
def pyDictGet (kvs : List (String × Json)) (k : String) : Option Json :=
  List.lookup k kvs.reverse

mutual

/-- Python `repr` of a JSON value (used for values nested in containers). -/
def pyReprOfJson : Json → String
  | .null => "None"
  | .bool true => "True"
  | .bool false => "False"
  | .num n => toString n
  | .str s => "\x27" ++ s ++ "\x27"
  | .arr xs => "[" ++ pyReprListOfJson xs ++ "]"
  | .obj kvs => "\x7b" ++ pyReprObjOfJson kvs ++ "\x7d"

/-- Comma-separated `repr` of the elements of a Python list. -/
def pyReprListOfJson : List Json → String
  | [] => ""
  | [x] => pyReprOfJson x
  | x :: xs => pyReprOfJson x ++ ", " ++ pyReprListOfJson xs

/-- Comma-separated `repr` of the items of a Python dict. -/
def pyReprObjOfJson : List (String × Json) → String
  | [] => ""
  | [(k, v)] => "\x27" ++ k ++ "\x27: " ++ pyReprOfJson v
  | (k, v) :: kvs =>
      "\x27" ++ k ++ "\x27: " ++ pyReprOfJson v ++ ", " ++ pyReprObjOfJson kvs

end

/-- Python `str` of a JSON value.  The code stores `package_info["pkgver"]`
unchanged and only converts it with `str()` when printing the table; this
function is that composition (identity on strings, `str` rendering
otherwise). -/
def pyStrOfJson : Json → String
  | .null => "None"
  | .bool true => "True"
  | .bool false => "False"
  | .num n => toString n
  | .str s => s
  | .arr xs => "[" ++ pyReprListOfJson xs ++ "]"
  | .obj kvs => "\x7b" ++ pyReprObjOfJson kvs ++ "\x7d"

/-- ASCII whitespace stripped by Python `str.strip()`. -/
def pyIsSpace (c : Char) : Bool :=
  c = ' ' || c = '\t' || c = '\n' || c = '\r' || c = '\x0b' || c = '\x0c'

/-- Python `str.strip()`: remove leading and trailing whitespace. -/
def pyStrip (s : String) : String :=
  String.mk (((s.toList.dropWhile pyIsSpace).reverse.dropWhile pyIsSpace).reverse)

/-- The attributes every `Package` instance carries after `Package.__init__`
(lines 36-43).  `source_package` is set only by `PackageFedora.__init__`
(lines 90-94); for the other variants it is unused and kept `""` here. -/
structure PackageState where
  repository : String
  name : String
  distro : String
  distro_release : String
  source_package : String
  version : String
  last_updated : String
deriving DecidableEq

/-- The field assignments of `Package.__init__` (lines 36-42): identifying
fields from the arguments, `version` and `last_updated` empty. -/
def initState (repository name distro distro_release source_package : String) :
    PackageState :=
  ⟨repository, name, distro, distro_release, source_package, "", ""⟩

/-- `PackageArchLinux.update` (lines 54-65), starting from the fetch result of
the constructed URL fed through `json.loads`.  `none` models
`_url_content(url) is None` (the method returns, fields untouched).  Indexing
a non-dict raises `TypeError`; a missing key raises `KeyError`;
`.strip()` on a non-string raises `AttributeError`.  Note the code assigns
`self.version = package_info["pkgver"]` (no strip) before looking up
`last_update`. -/
def archUpdate (fetched : Option Json) (st : PackageState) :
    Except PyError PackageState :=
  match fetched with
  | none => .ok st
  | some j =>
    match j with
    | .obj kvs =>
      match pyDictGet kvs "pkgver" with
      | none => .error .keyError
      | some v =>
        let st1 := { st with version := pyStrOfJson v }
        match pyDictGet kvs "last_update" with
        | none => .error .keyError
        | some (.str lu) => .ok { st1 with last_updated := pyStrip lu }
        | some _ => .error .attributeError
    | _ => .error .typeError

/-- `PackageArchLinux.__init__` (lines 51-52) followed by the `update()` call
performed at the end of `Package.__init__` (line 43). -/
def packageArchLinux (fetched : Option Json) (repository name : String) :
    Except PyError PackageState :=
  archUpdate fetched (initState repository name "ArchLinux" "" "")

/-- Characters that are special in Python regular expressions.  A string all
of whose characters avoid them is matched literally when interpolated into a
pattern f-string, which is the regime in which the literal-text model of the
interpolated patterns below is faithful. -/
def pyRegexSpecial (c : Char) : Bool :=
  c = '.' || c = '^' || c = '$' || c = '*' || c = '+' || c = '?' ||
  c = '\x7b' || c = '\x7d' || c = '[' || c = ']' || c = '(' || c = ')' ||
  c = '|' || c = '\\'

/-- The string contains no regex metacharacter. -/
def regexSafe (s : String) : Bool :=
  s.toList.all (fun c => !pyRegexSpecial c)

/-- Lazy group matching for `(.*?)B` with `B` a literal: the shortest prefix
`g` of the input made of non-newline characters (Python `.` does not match a
newline) such that the literal `B` follows immediately after `g`; `none` when
no such prefix exists. -/
def lazyGroup (B : List Char) : List Char → Option (List Char)
  | [] => if B.isPrefixOf ([] : List Char) then some [] else none
  | c :: rest =>
    if B.isPrefixOf (c :: rest) then some []
    else if c = '\n' then none
    else (lazyGroup B rest).map (fun g => c :: g)

/-- Matching `A(.*?)B` anchored at the start of `s`: the literal `A` must be a
prefix, then the lazy group runs. -/
def tryAt (A B : List Char) (s : List Char) : Option (List Char) :=
  if A.isPrefixOf s then lazyGroup B (s.drop A.length) else none

/-- Python `re.search` for a pattern of the shape `A(.*?)B` with `A`, `B`
literal: try each start position left to right, return `group(1)` of the
first (leftmost) match. -/
def reSearch (A B : List Char) : List Char → Option (List Char)
  | [] => tryAt A B []
  | c :: rest =>
    match tryAt A B (c :: rest) with
    | some g => some g
    | none => reSearch A B rest

/-- Greedy matching of `([0-9]\x7b1,2\x7d)/` at the start of the input: two
digits are preferred, backtracking to one digit when the following character
is not the literal `/`; returns the digit group and the rest after the `/`. -/
def digits12Slash : List Char → Option (List Char × List Char)
  | a :: b :: rest =>
    if a.isDigit then
      if b.isDigit then
        match rest with
        | '/' :: r2 => some ([a, b], r2)
        | _ => none
      else if b = '/' then some ([a], rest)
      else none
    else none
  | _ => none

/-- Matching of `([0-9]\x7b4\x7d)` at the start of the input: exactly four
digits; returns the group and the rest. -/
def digits4 : List Char → Option (List Char × List Char)
  | a :: b :: c :: d :: rest =>
    if a.isDigit && b.isDigit && c.isDigit && d.isDigit then
      some ([a, b, c, d], rest)
    else none
  | _ => none

/-- Literal prefix of the FlatHub date pattern (line 128). -/
def fhDateA : List Char := "<div class=\"text-sm\" title=\"".toList

/-- Literal closing tag of the FlatHub date pattern. -/
def fhCloseDiv : List Char := "</div>".toList

/-- Matching the FlatHub date pattern
`<div class="text-sm" title="([0-9]\x7b1,2\x7d)/([0-9]\x7b1,2\x7d)/([0-9]\x7b4\x7d)">.*?</div>`
anchored at the start of `s`; returns the three digit groups
(month, day, year) of the match. -/
def dateTryAt (s : List Char) : Option (List Char × List Char × List Char) :=
  if fhDateA.isPrefixOf s then
    match digits12Slash (s.drop fhDateA.length) with
    | some (mo, t1) =>
      match digits12Slash t1 with
      | some (d, t2) =>
        match digits4 t2 with
        | some (y, t3) =>
          match t3 with
          | '"' :: '>' :: t4 =>
            if (lazyGroup fhCloseDiv t4).isSome then some (mo, d, y) else none
          | _ => none
        | none => none
      | none => none
    | none => none
  else none

/-- Python `re.search` for the FlatHub date pattern: leftmost match wins. -/
def dateSearch : List Char → Option (List Char × List Char × List Char)
  | [] => dateTryAt []
  | c :: rest =>
    match dateTryAt (c :: rest) with
    | some x => some x
    | none => dateSearch rest

/-- Literal prefix of the Debian version pattern (line 80),
`<h1>Source Package: {name} \(` with the name interpolated. -/
def debianA (name : String) : List Char :=
  ("<h1>Source Package: " ++ name ++ " (").toList

/-- Literal suffix of the Debian version pattern, `\)\n</h1>`. -/
def debianB : List Char := ")\n</h1>".toList

/-- `PackageDebian.update` (lines 72-85), starting from the fetch result of
the constructed URL.  Only `version` is assigned, and only on a match;
`last_updated` is never touched (the `TODO` on line 85). -/
def debianUpdate (fetched : Option (List Char)) (st : PackageState) :
    Except PyError PackageState :=
  match fetched with
  | none => .ok st
  | some html =>
    match reSearch (debianA st.name) debianB html with
    | some g => .ok { st with version := String.mk g }
    | none => .ok st

/-- `PackageDebian.__init__` (lines 69-70) followed by `update()`. -/
def packageDebian (fetched : Option (List Char)) (repository name : String) :
    Except PyError PackageState :=
  debianUpdate fetched (initState repository name "Debian" "" "")

/-- Literal prefix of the Fedora version pattern (line 104),
`<a href="fedora-{distro_release}.html">` with the release interpolated. -/
def fedoraA (distro_release : String) : List Char :=
  ("<a href=\"fedora-" ++ distro_release ++ ".html\">").toList

/-- Literal suffix of the Fedora version pattern, `</a>`. -/
def fedoraB : List Char := "</a>".toList

/-- `PackageFedora.update` (lines 97-109), starting from the fetch result of
the constructed URL (which uses `source_package` and `name`). -/
def fedoraUpdate (fetched : Option (List Char)) (st : PackageState) :
    Except PyError PackageState :=
  match fetched with
  | none => .ok st
  | some html =>
    match reSearch (fedoraA st.distro_release) fedoraB html with
    | some g => .ok { st with version := String.mk g }
    | none => .ok st

/-- `PackageFedora.__init__` (lines 90-95) followed by `update()`:
`source_package` falls back to `name` when not given. -/
def packageFedora (fetched : Option (List Char)) (repository name : String)
    (distro_release : String) (source_package : Option String) :
    Except PyError PackageState :=
  fedoraUpdate fetched
    (initState repository name "Fedora" distro_release
      (source_package.getD name))

/-- `PackageFedora(repository, name)` with the Python default arguments
`distro_release="37"` and `source_package=None` (line 90). -/
def packageFedoraDefault (fetched : Option (List Char))
    (repository name : String) : Except PyError PackageState :=
  packageFedora fetched repository name "37" none

/-- Literal prefix of the FlatHub version pattern (line 123). -/
def fhVersionA : List Char := "<h3 class=\"my-0\">Changes in version ".toList

/-- Literal suffix of the FlatHub version pattern. -/
def fhVersionB : List Char := "</h3>".toList

/-- `PackageFlatPackFlatHub.update` (lines 116-134): version from the `<h3>`
pattern, then `last_updated` from the date pattern, reassembled as
`year + '-' + month + '-' + day`. -/
def flathubUpdate (fetched : Option (List Char)) (st : PackageState) :
    Except PyError PackageState :=
  match fetched with
  | none => .ok st
  | some html =>
    let st1 :=
      match reSearch fhVersionA fhVersionB html with
      | some g => { st with version := String.mk g }
      | none => st
    match dateSearch html with
    | some (mo, d, y) =>
      .ok { st1 with
              last_updated :=
                String.mk y ++ "-" ++ String.mk mo ++ "-" ++ String.mk d }
    | none => .ok st1

/-- `PackageFlatPackFlatHub.__init__` (lines 113-114) followed by
`update()`. -/
def packageFlatHub (fetched : Option (List Char)) (name : String) :
    Except PyError PackageState :=
  flathubUpdate fetched (initState "flathub" name "flatpak" "" "")

/-- Python `str.ljust` / the `'\x7b:<15\x7d'` format spec: pad on the right
with spaces to the minimum width, leave longer strings unchanged. -/
def pyLJust (s : String) (w : Nat) : String :=
  s ++ String.mk (List.replicate (w - s.length) ' ')

/-- One output row of `_pprint` (lines 138, 147): four 15-character
left-justified columns. -/
def fmtRow (a b c d : String) : String :=
  pyLJust a 15 ++ pyLJust b 15 ++ pyLJust c 15 ++ pyLJust d 15

/-- The separator `'-' * (15+15+15+15)` (line 137). -/
def hlineStr : String := String.mk (List.replicate 60 '-')

/-- `_pprint` (lines 136-153), with each `print` call contributing one
element: the header row, then for each package a separator line and a data
row whose first column is `str(p.distro) + " " + str(p.distro_release)`. -/
def pprintLines (packages : List PackageState) : List String :=
  fmtRow "distro" "repository" "version" "last updated" ::
    packages.flatMap (fun p =>
      [hlineStr,
       fmtRow (p.distro ++ " " ++ p.distro_release) p.repository p.version
         p.last_updated])

/-- The fetch results the outside world supplies to one program run: for each
variant, the result of `_url_content` on the URL built from the keys the
variant puts into it (ArchLinux: repository and name, with the body fed
through `json.loads`; Debian: repository and name; Fedora: source package and
name; FlatHub: name). -/
structure Env where
  archFetch : String → String → Option Json
  debianFetch : String → String → Option (List Char)
  fedoraFetch : String → String → Option (List Char)
  flathubFetch : String → Option (List Char)

/-- An environment in which every fetch yields no content. -/
def noneEnv : Env :=
  ⟨fun _ _ => none, fun _ _ => none, fun _ _ => none, fun _ => none⟩

/-- The list of packages constructed by the `args.search` branch of `main`
(lines 192-205), in source order; construction happens sequentially and a
raised exception aborts the run. -/
def searchStates (env : Env) (term : String) :
    Except PyError (List PackageState) := do
  let p1 ← packageArchLinux (env.archFetch "core" term) "core" term
  let p2 ← packageArchLinux (env.archFetch "extra" term) "extra" term
  let p3 ← packageArchLinux (env.archFetch "community" term) "community" term
  let p4 ← packageArchLinux (env.archFetch "multilib" term) "multilib" term
  let p5 ← packageArchLinux (env.archFetch "testing" term) "testing" term
  let p6 ← packageArchLinux (env.archFetch "community-testing" term)
    "community-testing" term
  let p7 ← packageDebian (env.debianFetch "unstable" term) "unstable" term
  let p8 ← packageDebian (env.debianFetch "testing" term) "testing" term
  let p9 ← packageDebian (env.debianFetch "stable" term) "stable" term
  let p10 ← packageFedoraDefault (env.fedoraFetch term term) "stable" term
  let p11 ← packageFedora (env.fedoraFetch term term) "stable" term "36" none
  let p12 ← packageFlatHub (env.flathubFetch term) term
  pure [p1, p2, p3, p4, p5, p6, p7, p8, p9, p10, p11, p12]

/-- The packages of the `'firefox'` section (lines 209-216). -/
def firefoxStates (env : Env) : Except PyError (List PackageState) := do
  let p1 ← packageArchLinux (env.archFetch "extra" "firefox") "extra" "firefox"
  let p2 ← packageDebian (env.debianFetch "unstable" "firefox") "unstable" "firefox"
  let p3 ← packageDebian (env.debianFetch "testing" "firefox") "testing" "firefox"
  let p4 ← packageDebian (env.debianFetch "stable" "firefox") "stable" "firefox"
  let p5 ← packageFedoraDefault (env.fedoraFetch "firefox" "firefox") "stable" "firefox"
  let p6 ← packageFlatHub (env.flathubFetch "org.mozilla.firefox") "org.mozilla.firefox"
  pure [p1, p2, p3, p4, p5, p6]

/-- The packages of the `'thunderbird'` section (lines 220-227). -/
def thunderbirdStates (env : Env) : Except PyError (List PackageState) := do
  let p1 ← packageArchLinux (env.archFetch "extra" "thunderbird") "extra" "thunderbird"
  let p2 ← packageDebian (env.debianFetch "unstable" "thunderbird") "unstable" "thunderbird"
  let p3 ← packageDebian (env.debianFetch "testing" "thunderbird") "testing" "thunderbird"
  let p4 ← packageDebian (env.debianFetch "stable" "thunderbird") "stable" "thunderbird"
  let p5 ← packageFedoraDefault (env.fedoraFetch "thunderbird" "thunderbird") "stable" "thunderbird"
  let p6 ← packageFlatHub (env.flathubFetch "org.mozilla.Thunderbird") "org.mozilla.Thunderbird"
  pure [p1, p2, p3, p4, p5, p6]

/-- The packages of the `'libreoffice'` section (lines 231-239). -/
def libreofficeStates (env : Env) : Except PyError (List PackageState) := do
  let p1 ← packageArchLinux (env.archFetch "extra" "libreoffice-fresh") "extra" "libreoffice-fresh"
  let p2 ← packageArchLinux (env.archFetch "extra" "libreoffice-still") "extra" "libreoffice-still"
  let p3 ← packageDebian (env.debianFetch "unstable" "libreoffice") "unstable" "libreoffice"
  let p4 ← packageDebian (env.debianFetch "testing" "libreoffice") "testing" "libreoffice"
  let p5 ← packageDebian (env.debianFetch "stable" "libreoffice") "stable" "libreoffice"
  let p6 ← packageFedoraDefault (env.fedoraFetch "libreoffice" "libreoffice") "stable" "libreoffice"
  let p7 ← packageFlatHub (env.flathubFetch "org.libreoffice.LibreOffice") "org.libreoffice.LibreOffice"
  pure [p1, p2, p3, p4, p5, p6, p7]

/-- The packages of the `'inkscape'` section (lines 243-250). -/
def inkscapeStates (env : Env) : Except PyError (List PackageState) := do
  let p1 ← packageArchLinux (env.archFetch "extra" "inkscape") "extra" "inkscape"
  let p2 ← packageDebian (env.debianFetch "unstable" "inkscape") "unstable" "inkscape"
  let p3 ← packageDebian (env.debianFetch "testing" "inkscape") "testing" "inkscape"
  let p4 ← packageDebian (env.debianFetch "stable" "inkscape") "stable" "inkscape"
  let p5 ← packageFedoraDefault (env.fedoraFetch "inkscape" "inkscape") "stable" "inkscape"
  let p6 ← packageFlatHub (env.flathubFetch "org.inkscape.Inkscape") "org.inkscape.Inkscape"
  pure [p1, p2, p3, p4, p5, p6]

/-- The packages of the `'mesa'` section (lines 254-261): the Fedora entry
queries `mesa-libGL` with source package `mesa`. -/
def mesaStates (env : Env) : Except PyError (List PackageState) := do
  let p1 ← packageArchLinux (env.archFetch "extra" "mesa") "extra" "mesa"
  let p2 ← packageDebian (env.debianFetch "unstable" "mesa") "unstable" "mesa"
  let p3 ← packageDebian (env.debianFetch "testing" "mesa") "testing" "mesa"
  let p4 ← packageDebian (env.debianFetch "stable" "mesa") "stable" "mesa"
  let p5 ← packageFedora (env.fedoraFetch "mesa" "mesa-libGL") "stable"
    "mesa-libGL" "37" (some "mesa")
  pure [p1, p2, p3, p4, p5]

/-- The fixed software list `SOFTWARE` (line 156). -/
def SOFTWARE : List String :=
  ["firefox", "thunderbird", "libreoffice", "inkscape", "mesa"]

/-- The selection logic of `main` (lines 186-190): start from the empty list,
let `--packages` (when given; argparse guarantees it non-empty) replace it,
then let `--all` replace it with the full `SOFTWARE` list. -/
def selectPackages (packagesArg : Option (List String)) (allFlag : Bool) :
    List String :=
  let sel : List String := []
  let sel := match packagesArg with
    | some ps => ps
    | none => sel
  if allFlag then SOFTWARE else sel

/-- One `if software in selected_packages:` section of `main`: when selected,
print the header line and run `_pprint` on the section's packages. -/
def sectionLines (selected : List String) (sw header : String)
    (states : Except PyError (List PackageState)) :
    Except PyError (List String) :=
  if selected.contains sw then do
    let ps ← states
    pure (header :: pprintLines ps)
  else pure []

/-- The whole of `main` after argument parsing (lines 186-262), with each
`print` call contributing one element of the output list.  `packagesArg`,
`allFlag` and `searchArg` are the parsed `-p`, `-a` and `-s` arguments. -/
def mainRun (env : Env) (packagesArg : Option (List String)) (allFlag : Bool)
    (searchArg : Option String) : Except PyError (List String) := do
  let selected := selectPackages packagesArg allFlag
  let searchOut ←
    match searchArg with
    | some term => do
        let ps ← searchStates env term
        pure (pprintLines ps)
    | none => pure ([] : List String)
  let s1 ← sectionLines selected "firefox" "\nFirefox:" (firefoxStates env)
  let s2 ← sectionLines selected "thunderbird" "\nThunderbird:"
    (thunderbirdStates env)
  let s3 ← sectionLines selected "libreoffice" "\nLibreOffice:"
    (libreofficeStates env)
  let s4 ← sectionLines selected "inkscape" "\nInkscape:" (inkscapeStates env)
  let s5 ← sectionLines selected "mesa" "\nMesa:" (mesaStates env)
  pure (searchOut ++ s1 ++ s2 ++ s3 ++ s4 ++ s5)

/-- The identifying fields of a list of packages: distro, repository, name
and distro release, in order. -/
def idsOf (ps : List PackageState) : List (String × String × String × String) :=
  ps.map (fun p => (p.distro, p.repository, p.name, p.distro_release))

/-- The package states of a search run for `"foo"` in which every fetch
yields no content. -/
def searchNoneStates : List PackageState :=
  [initState "core" "foo" "ArchLinux" "" "",
   initState "extra" "foo" "ArchLinux" "" "",
   initState "community" "foo" "ArchLinux" "" "",
   initState "multilib" "foo" "ArchLinux" "" "",
   initState "testing" "foo" "ArchLinux" "" "",
   initState "community-testing" "foo" "ArchLinux" "" "",
   initState "unstable" "foo" "Debian" "" "",
   initState "testing" "foo" "Debian" "" "",
   initState "stable" "foo" "Debian" "" "",
   initState "stable" "foo" "Fedora" "37" "foo",
   initState "stable" "foo" "Fedora" "36" "foo",
   initState "flathub" "foo" "flatpak" "" ""]

/-- The firefox section's package states when every fetch yields no
content. -/
def firefoxNoneStates : List PackageState :=
  [initState "extra" "firefox" "ArchLinux" "" "",
   initState "unstable" "firefox" "Debian" "" "",
   initState "testing" "firefox" "Debian" "" "",
   initState "stable" "firefox" "Debian" "" "",
   initState "stable" "firefox" "Fedora" "37" "firefox",
   initState "flathub" "org.mozilla.firefox" "flatpak" "" ""]

/-- The thunderbird section's package states when every fetch yields no
content. -/
def thunderbirdNoneStates : List PackageState :=
  [initState "extra" "thunderbird" "ArchLinux" "" "",
   initState "unstable" "thunderbird" "Debian" "" "",
   initState "testing" "thunderbird" "Debian" "" "",
   initState "stable" "thunderbird" "Debian" "" "",
   initState "stable" "thunderbird" "Fedora" "37" "thunderbird",
   initState "flathub" "org.mozilla.Thunderbird" "flatpak" "" ""]

/-- The libreoffice section's package states when every fetch yields no
content. -/
def libreofficeNoneStates : List PackageState :=
  [initState "extra" "libreoffice-fresh" "ArchLinux" "" "",
   initState "extra" "libreoffice-still" "ArchLinux" "" "",
   initState "unstable" "libreoffice" "Debian" "" "",
   initState "testing" "libreoffice" "Debian" "" "",
   initState "stable" "libreoffice" "Debian" "" "",
   initState "stable" "libreoffice" "Fedora" "37" "libreoffice",
   initState "flathub" "org.libreoffice.LibreOffice" "flatpak" "" ""]

/-- The inkscape section's package states when every fetch yields no
content. -/
def inkscapeNoneStates : List PackageState :=
  [initState "extra" "inkscape" "ArchLinux" "" "",
   initState "unstable" "inkscape" "Debian" "" "",
   initState "testing" "inkscape" "Debian" "" "",
   initState "stable" "inkscape" "Debian" "" "",
   initState "stable" "inkscape" "Fedora" "37" "inkscape",
   initState "flathub" "org.inkscape.Inkscape" "flatpak" "" ""]

/-- The mesa section's package states when every fetch yields no content. -/
def mesaNoneStates : List PackageState :=
  [initState "extra" "mesa" "ArchLinux" "" "",
   initState "unstable" "mesa" "Debian" "" "",
   initState "testing" "mesa" "Debian" "" "",
   initState "stable" "mesa" "Debian" "" "",
   initState "stable" "mesa-libGL" "Fedora" "37" "mesa"]

theorem lazyGroup_prefix (B s : List Char) (h : B.isPrefixOf s = true) :
    lazyGroup B s = some [] := by
  cases s with
  | nil => simp [lazyGroup, h]
  | cons c rest => simp [lazyGroup, h]

theorem lazyGroup_exact (b0 : Char) (B g r : List Char)
    (hnl : ∀ c ∈ g, c ≠ '\n') (hhd : ∀ c ∈ g, c ≠ b0) :
    lazyGroup (b0 :: B) (g ++ (b0 :: B) ++ r) = some g := by
  induction g with
  | nil =>
    apply lazyGroup_prefix
    rw [List.isPrefixOf_iff_prefix, List.nil_append]
    exact List.prefix_append _ _
  | cons c g' ih =>
    have hc : c ≠ b0 := hhd c (by simp)
    have hn : c ≠ '\n' := hnl c (by simp)
    have ih' := ih (fun x hx => hnl x (by simp [hx]))
      (fun x hx => hhd x (by simp [hx]))
    have ih'' : lazyGroup (b0 :: B) (g' ++ b0 :: (B ++ r)) = some g' := by
      simpa [List.append_assoc] using ih'
    simp [lazyGroup, hn, ih'', Ne.symm hc]

theorem tryAt_prefix (A B s : List Char) : tryAt A B (A ++ s) = lazyGroup B s := by
  have hpre : A.isPrefixOf (A ++ s) = true := by
    rw [List.isPrefixOf_iff_prefix]; exact List.prefix_append _ _
  simp [tryAt, hpre, List.drop_left]

theorem tryAt_not_prefix (A B s : List Char) (h : A.isPrefixOf s = false) :
    tryAt A B s = none := by
  simp [tryAt, h]

theorem reSearch_found (A B s : List Char) (n : Nat) (g : List Char)
    (hbefore : ∀ i, i < n → tryAt A B (s.drop i) = none)
    (hn : tryAt A B (s.drop n) = some g) :
    reSearch A B s = some g := by
  induction s generalizing n with
  | nil =>
    cases n with
    | zero => simpa [reSearch] using hn
    | succ m =>
      have h0 := hbefore 0 (Nat.succ_pos m)
      rw [List.drop_nil] at h0 hn
      rw [h0] at hn
      exact absurd hn (by simp)
  | cons c rest ih =>
    cases n with
    | zero =>
      simp only [List.drop_zero] at hn
      unfold reSearch
      rw [hn]
    | succ m =>
      have h0 := hbefore 0 (Nat.succ_pos m)
      simp only [List.drop_zero] at h0
      unfold reSearch
      rw [h0]
      refine ih m (fun i hi => ?_) ?_
      · have := hbefore (i + 1) (Nat.succ_lt_succ hi)
        simpa [List.drop_succ_cons] using this
      · simpa [List.drop_succ_cons] using hn

theorem reSearch_decomp (A : List Char) (b0 : Char) (B p v r : List Char)
    (hA : ∀ i, i < p.length →
      A.isPrefixOf ((p ++ A ++ v ++ (b0 :: B) ++ r).drop i) = false)
    (hnl : ∀ c ∈ v, c ≠ '\n') (hhd : ∀ c ∈ v, c ≠ b0) :
    reSearch A (b0 :: B) (p ++ A ++ v ++ (b0 :: B) ++ r) = some v := by
  apply reSearch_found _ _ _ p.length
  · exact fun i hi => tryAt_not_prefix _ _ _ (hA i hi)
  · have hdrop : (p ++ A ++ v ++ (b0 :: B) ++ r).drop p.length
        = A ++ (v ++ (b0 :: B) ++ r) := by
      have : p ++ A ++ v ++ (b0 :: B) ++ r
          = p ++ (A ++ (v ++ (b0 :: B) ++ r)) := by
        simp [List.append_assoc]
      rw [this, List.drop_left]
    rw [hdrop, tryAt_prefix]
    have := lazyGroup_exact b0 B v r hnl hhd
    simpa [List.append_assoc] using this

theorem digits12Slash_one (a : Char) (rest : List Char) (ha : a.isDigit = true) :
    digits12Slash (a :: '/' :: rest) = some ([a], rest) := by
  simp [digits12Slash, ha]

theorem digits12Slash_two (a b : Char) (rest : List Char) (ha : a.isDigit = true)
    (hb : b.isDigit = true) :
    digits12Slash (a :: b :: '/' :: rest) = some ([a, b], rest) := by
  simp [digits12Slash, ha, hb]

theorem digits4_exact (a b c d : Char) (rest : List Char) (ha : a.isDigit = true)
    (hb : b.isDigit = true) (hc : c.isDigit = true) (hd : d.isDigit = true) :
    digits4 (a :: b :: c :: d :: rest) = some ([a, b, c, d], rest) := by
  simp [digits4, ha, hb, hc, hd]

theorem length_one_or_two (l : List Char) (h : l.length = 1 ∨ l.length = 2) :
    (∃ a, l = [a]) ∨ ∃ a b, l = [a, b] := by
  cases h with
  | inl h1 =>
    cases l with
    | nil => simp at h1
    | cons a l' =>
      cases l' with
      | nil => exact Or.inl ⟨a, rfl⟩
      | cons b l'' => simp at h1
  | inr h2 =>
    cases l with
    | nil => simp at h2
    | cons a l' =>
      cases l' with
      | nil => simp at h2
      | cons b l'' =>
        cases l'' with
        | nil => exact Or.inr ⟨a, b, rfl⟩
        | cons c l''' => simp at h2


theorem length_four (l : List Char) (h : l.length = 4) :
    ∃ a b c d, l = [a, b, c, d] := by
  cases l with
  | nil => simp at h
  | cons a l1 =>
    cases l1 with
    | nil => simp at h
    | cons b l2 =>
      cases l2 with
      | nil => simp at h
      | cons c l3 =>
        cases l3 with
        | nil => simp at h
        | cons d l4 =>
          cases l4 with
          | nil => exact ⟨a, b, c, d, rfl⟩
          | cons e l5 => simp at h

theorem dateTryAt_exact (mo d y t r : List Char)
    (hmo : mo.length = 1 ∨ mo.length = 2) (hmod : ∀ c ∈ mo, c.isDigit = true)
    (hdl : d.length = 1 ∨ d.length = 2) (hdd : ∀ c ∈ d, c.isDigit = true)
    (hy : y.length = 4) (hyd : ∀ c ∈ y, c.isDigit = true)
    (hnl : ∀ c ∈ t, c ≠ '\n') (hlt : ∀ c ∈ t, c ≠ '<') :
    dateTryAt (fhDateA ++
        (mo ++ '/' :: d ++ '/' :: y ++ '"' :: '>' :: (t ++ fhCloseDiv ++ r)))
      = some (mo, d, y) := by
  have hpre : fhDateA.isPrefixOf (fhDateA ++
      (mo ++ '/' :: d ++ '/' :: y ++ '"' :: '>' :: (t ++ fhCloseDiv ++ r)))
      = true := by
    rw [List.isPrefixOf_iff_prefix]; exact List.prefix_append _ _
  have hlz : lazyGroup fhCloseDiv (t ++ (fhCloseDiv ++ r)) = some t := by
    have hclose : fhCloseDiv = '<' :: "/div>".toList := rfl
    rw [hclose]
    have := lazyGroup_exact '<' "/div>".toList t r hnl hlt
    simpa [List.append_assoc] using this
  have hmo' := length_one_or_two mo hmo
  have hd' := length_one_or_two d hdl
  obtain ⟨y1, y2, y3, y4, rfl⟩ := length_four y hy
  have hy1 : y1.isDigit = true := hyd y1 (by simp)
  have hy2 : y2.isDigit = true := hyd y2 (by simp)
  have hy3 : y3.isDigit = true := hyd y3 (by simp)
  have hy4 : y4.isDigit = true := hyd y4 (by simp)
  rcases hmo' with ⟨a, rfl⟩ | ⟨a, b, rfl⟩ <;>
    rcases hd' with ⟨e, rfl⟩ | ⟨e, f, rfl⟩
  · have ha : a.isDigit = true := hmod a (by simp)
    have he : e.isDigit = true := hdd e (by simp)
    simp [dateTryAt, hpre, List.drop_left, digits12Slash, digits4,
      ha, he, hy1, hy2, hy3, hy4, hlz]
  · have ha : a.isDigit = true := hmod a (by simp)
    have he : e.isDigit = true := hdd e (by simp)
    have hf : f.isDigit = true := hdd f (by simp)
    simp [dateTryAt, hpre, List.drop_left, digits12Slash, digits4,
      ha, he, hf, hy1, hy2, hy3, hy4, hlz]
  · have ha : a.isDigit = true := hmod a (by simp)
    have hb : b.isDigit = true := hmod b (by simp)
    have he : e.isDigit = true := hdd e (by simp)
    simp [dateTryAt, hpre, List.drop_left, digits12Slash, digits4,
      ha, hb, he, hy1, hy2, hy3, hy4, hlz]
  · have ha : a.isDigit = true := hmod a (by simp)
    have hb : b.isDigit = true := hmod b (by simp)
    have he : e.isDigit = true := hdd e (by simp)
    have hf : f.isDigit = true := hdd f (by simp)
    simp [dateTryAt, hpre, List.drop_left, digits12Slash, digits4,
      ha, hb, he, hf, hy1, hy2, hy3, hy4, hlz]

theorem dateTryAt_not_prefix (s : List Char)
    (h : fhDateA.isPrefixOf s = false) : dateTryAt s = none := by
  simp [dateTryAt, h]

theorem dateSearch_found (s : List Char) (n : Nat)
    (x : List Char × List Char × List Char)
    (hbefore : ∀ i, i < n → dateTryAt (s.drop i) = none)
    (hn : dateTryAt (s.drop n) = some x) :
    dateSearch s = some x := by
  induction s generalizing n with
  | nil =>
    cases n with
    | zero => simpa [dateSearch] using hn
    | succ m =>
      have h0 := hbefore 0 (Nat.succ_pos m)
      rw [List.drop_nil] at h0 hn
      rw [h0] at hn
      exact absurd hn (by simp)
  | cons c rest ih =>
    cases n with
    | zero =>
      simp only [List.drop_zero] at hn
      unfold dateSearch
      rw [hn]
    | succ m =>
      have h0 := hbefore 0 (Nat.succ_pos m)
      simp only [List.drop_zero] at h0
      unfold dateSearch
      rw [h0]
      refine ih m (fun i hi => ?_) ?_
      · have := hbefore (i + 1) (Nat.succ_lt_succ hi)
        simpa [List.drop_succ_cons] using this
      · simpa [List.drop_succ_cons] using hn

theorem dateSearch_decomp (q mo d y t r : List Char)
    (hq : ∀ i, i < q.length → fhDateA.isPrefixOf ((q ++ fhDateA ++
      (mo ++ '/' :: d ++ '/' :: y ++ '"' :: '>' :: (t ++ fhCloseDiv ++ r))).drop i)
      = false)
    (hmo : mo.length = 1 ∨ mo.length = 2) (hmod : ∀ c ∈ mo, c.isDigit = true)
    (hdl : d.length = 1 ∨ d.length = 2) (hdd : ∀ c ∈ d, c.isDigit = true)
    (hy : y.length = 4) (hyd : ∀ c ∈ y, c.isDigit = true)
    (hnl : ∀ c ∈ t, c ≠ '\n') (hlt : ∀ c ∈ t, c ≠ '<') :
    dateSearch (q ++ fhDateA ++
        (mo ++ '/' :: d ++ '/' :: y ++ '"' :: '>' :: (t ++ fhCloseDiv ++ r)))
      = some (mo, d, y) := by
  apply dateSearch_found _ q.length
  · exact fun i hi => dateTryAt_not_prefix _ (hq i hi)
  · have hdrop : (q ++ fhDateA ++
        (mo ++ '/' :: d ++ '/' :: y ++ '"' :: '>' :: (t ++ fhCloseDiv ++ r))).drop q.length
        = fhDateA ++
          (mo ++ '/' :: d ++ '/' :: y ++ '"' :: '>' :: (t ++ fhCloseDiv ++ r)) := by
      have : q ++ fhDateA ++
          (mo ++ '/' :: d ++ '/' :: y ++ '"' :: '>' :: (t ++ fhCloseDiv ++ r))
          = q ++ (fhDateA ++
            (mo ++ '/' :: d ++ '/' :: y ++ '"' :: '>' :: (t ++ fhCloseDiv ++ r))) := by
        simp [List.append_assoc]
      rw [this, List.drop_left]
    rw [hdrop]
    exact dateTryAt_exact mo d y t r hmo hmod hdl hdd hy hyd hnl hlt

theorem exceptBind_ok {α β : Type} {x : Except PyError α}
    {f : α → Except PyError β} {b : β} :
    (x >>= f) = Except.ok b ↔ ∃ a, x = Except.ok a ∧ f a = Except.ok b := by
  cases x <;> simp [Bind.bind, Except.bind]

theorem archUpdate_ids (fetched : Option Json) (st st' : PackageState)
    (h : archUpdate fetched st = Except.ok st') :
    st'.repository = st.repository ∧ st'.name = st.name ∧
    st'.distro = st.distro ∧ st'.distro_release = st.distro_release ∧
    st'.source_package = st.source_package := by
  cases fetched with
  | none =>
    simp only [archUpdate, Except.ok.injEq] at h
    subst h
    exact ⟨rfl, rfl, rfl, rfl, rfl⟩
  | some j =>
    cases j with
    | obj kvs =>
      simp only [archUpdate] at h
      cases hp : pyDictGet kvs "pkgver" <;> rw [hp] at h
      · simp at h
      · cases hl : pyDictGet kvs "last_update" <;> rw [hl] at h
        · simp at h
        · rename_i w
          cases w with
          | str lu =>
            simp only [Except.ok.injEq] at h
            subst h
            exact ⟨rfl, rfl, rfl, rfl, rfl⟩
          | null => simp at h
          | bool b => simp at h
          | num n => simp at h
          | arr xs => simp at h
          | obj kvs2 => simp at h
    | null => simp [archUpdate] at h
    | bool b => simp [archUpdate] at h
    | num n => simp [archUpdate] at h
    | str s => simp [archUpdate] at h
    | arr xs => simp [archUpdate] at h

theorem debianUpdate_ids (fetched : Option (List Char)) (st st' : PackageState)
    (h : debianUpdate fetched st = Except.ok st') :
    st'.repository = st.repository ∧ st'.name = st.name ∧
    st'.distro = st.distro ∧ st'.distro_release = st.distro_release ∧
    st'.source_package = st.source_package := by
  cases fetched with
  | none =>
    simp only [debianUpdate, Except.ok.injEq] at h
    subst h
    exact ⟨rfl, rfl, rfl, rfl, rfl⟩
  | some html =>
    simp only [debianUpdate] at h
    cases hm : reSearch (debianA st.name) debianB html <;> rw [hm] at h <;>
      simp only [Except.ok.injEq] at h <;> subst h <;>
      exact ⟨rfl, rfl, rfl, rfl, rfl⟩

theorem fedoraUpdate_ids (fetched : Option (List Char)) (st st' : PackageState)
    (h : fedoraUpdate fetched st = Except.ok st') :
    st'.repository = st.repository ∧ st'.name = st.name ∧
    st'.distro = st.distro ∧ st'.distro_release = st.distro_release ∧
    st'.source_package = st.source_package := by
  cases fetched with
  | none =>
    simp only [fedoraUpdate, Except.ok.injEq] at h
    subst h
    exact ⟨rfl, rfl, rfl, rfl, rfl⟩
  | some html =>
    simp only [fedoraUpdate] at h
    cases hm : reSearch (fedoraA st.distro_release) fedoraB html <;>
      rw [hm] at h <;> simp only [Except.ok.injEq] at h <;> subst h <;>
      exact ⟨rfl, rfl, rfl, rfl, rfl⟩

theorem flathubUpdate_ids (fetched : Option (List Char)) (st st' : PackageState)
    (h : flathubUpdate fetched st = Except.ok st') :
    st'.repository = st.repository ∧ st'.name = st.name ∧
    st'.distro = st.distro ∧ st'.distro_release = st.distro_release ∧
    st'.source_package = st.source_package := by
  cases fetched with
  | none =>
    simp only [flathubUpdate, Except.ok.injEq] at h
    subst h
    exact ⟨rfl, rfl, rfl, rfl, rfl⟩
  | some html =>
    simp only [flathubUpdate] at h
    cases hm : reSearch fhVersionA fhVersionB html <;> rw [hm] at h <;>
      cases hd : dateSearch html <;> rw [hd] at h <;>
      simp only [Except.ok.injEq] at h <;> subst h <;>
      exact ⟨rfl, rfl, rfl, rfl, rfl⟩

theorem packageArchLinux_ids (fetched : Option Json) (repository name : String)
    (p : PackageState) (h : packageArchLinux fetched repository name = Except.ok p) :
    (p.distro, p.repository, p.name, p.distro_release)
      = ("ArchLinux", repository, name, "") := by
  obtain ⟨h1, h2, h3, h4, h5⟩ := archUpdate_ids _ _ _ h
  simp [initState] at h1 h2 h3 h4
  simp [h1, h2, h3, h4]

theorem packageDebian_ids (fetched : Option (List Char)) (repository name : String)
    (p : PackageState) (h : packageDebian fetched repository name = Except.ok p) :
    (p.distro, p.repository, p.name, p.distro_release)
      = ("Debian", repository, name, "") := by
  obtain ⟨h1, h2, h3, h4, h5⟩ := debianUpdate_ids _ _ _ h
  simp [initState] at h1 h2 h3 h4
  simp [h1, h2, h3, h4]

theorem packageFedora_ids (fetched : Option (List Char))
    (repository name distro_release : String) (sp : Option String)
    (p : PackageState)
    (h : packageFedora fetched repository name distro_release sp = Except.ok p) :
    (p.distro, p.repository, p.name, p.distro_release)
      = ("Fedora", repository, name, distro_release)
      ∧ p.source_package = sp.getD name := by
  obtain ⟨h1, h2, h3, h4, h5⟩ := fedoraUpdate_ids _ _ _ h
  simp [initState] at h1 h2 h3 h4 h5
  simp [h1, h2, h3, h4, h5]

theorem packageFlatHub_ids (fetched : Option (List Char)) (name : String)
    (p : PackageState) (h : packageFlatHub fetched name = Except.ok p) :
    (p.distro, p.repository, p.name, p.distro_release)
      = ("flatpak", "flathub", name, "") := by
  obtain ⟨h1, h2, h3, h4, h5⟩ := flathubUpdate_ids _ _ _ h
  simp [initState] at h1 h2 h3 h4
  simp [h1, h2, h3, h4]

theorem sectionLines_ok {selected : List String} {sw header : String}
    {states : Except PyError (List PackageState)} {s : List String}
    (hsw : selected.contains sw = true)
    (h : sectionLines selected sw header states = Except.ok s) :
    ∃ ps, states = Except.ok ps ∧ s = header :: pprintLines ps := by
  simp only [sectionLines, hsw, if_true] at h
  obtain ⟨ps, h1, h2⟩ := exceptBind_ok.mp h
  refine ⟨ps, h1, ?_⟩
  simpa [pure, Except.pure, eq_comm] using h2

theorem rowsLength (ps : List PackageState) :
    (ps.flatMap (fun p =>
      [hlineStr,
       fmtRow (p.distro ++ " " ++ p.distro_release) p.repository p.version
         p.last_updated])).length = 2 * ps.length := by
  induction ps with
  | nil => simp
  | cons p tl ih =>
    simp only [List.flatMap_cons, List.length_append, List.length_cons,
      List.length_nil, ih, List.length_cons]
    ring

theorem rowsGet (ps : List PackageState) (i : Nat) (h : i < ps.length) :
    (ps.flatMap (fun p =>
      [hlineStr,
       fmtRow (p.distro ++ " " ++ p.distro_release) p.repository p.version
         p.last_updated])).get? (2 * i) = some hlineStr ∧
    (ps.flatMap (fun p =>
      [hlineStr,
       fmtRow (p.distro ++ " " ++ p.distro_release) p.repository p.version
         p.last_updated])).get? (2 * i + 1)
      = some (fmtRow ((ps.get ⟨i, h⟩).distro ++ " " ++ (ps.get ⟨i, h⟩).distro_release)
          (ps.get ⟨i, h⟩).repository (ps.get ⟨i, h⟩).version
          (ps.get ⟨i, h⟩).last_updated) := by
  induction ps generalizing i with
  | nil => simp at h
  | cons p tl ih =>
    cases i with
    | zero => simp [List.flatMap_cons]
    | succ j =>
      have h' : j < tl.length := by simpa using h
      have hidx : 2 * (j + 1) = (2 * j + 1) + 1 := by ring
      have hidx2 : 2 * (j + 1) + 1 = (2 * j + 1 + 1) + 1 := by ring
      obtain ⟨ih1, ih2⟩ := ih j h'
      constructor
      · rw [hidx]
        simpa [List.flatMap_cons] using ih1
      · rw [hidx2]
        simpa [List.flatMap_cons] using ih2

/-- C1 counterexample: the claim says a fetched JSON object without the
`pkgver` key leaves `version` empty and raises no error; on this concrete
input (a JSON object with only `last_update`) the ArchLinux update instead
raises `KeyError` to the caller. -/
theorem C1_counterexample :
    packageArchLinux (some (Json.obj [("last_update", Json.str "2024-01-01")]))
      "extra" "firefox" = Except.error PyError.keyError := by
  rfl

/-- C1 (amended): for the ArchLinux variant, when the fetched body is a JSON
object in which `pkgver` is absent, or `pkgver` is present but `last_update`
is absent, the update operation raises `KeyError`, which propagates to the
caller (the fields are not silently left at their defaults). -/
theorem C1_keyError (kvs : List (String × Json)) (st : PackageState) :
    (pyDictGet kvs "pkgver" = none →
      archUpdate (some (Json.obj kvs)) st = Except.error PyError.keyError) ∧
    (∀ v, pyDictGet kvs "pkgver" = some v →
      pyDictGet kvs "last_update" = none →
      archUpdate (some (Json.obj kvs)) st = Except.error PyError.keyError) := by
  constructor
  · intro h
    simp [archUpdate, h]
  · intro v hv h
    simp [archUpdate, hv, h]

/-- C1 witness: both amended branches at concrete inputs. -/
theorem C1_witness :
    archUpdate (some (Json.obj []))
      (initState "extra" "firefox" "ArchLinux" "" "")
      = Except.error PyError.keyError ∧
    archUpdate (some (Json.obj [("pkgver", Json.str "115.0")]))
      (initState "extra" "firefox" "ArchLinux" "" "")
      = Except.error PyError.keyError :=
  ⟨(C1_keyError [] _).1 rfl,
   (C1_keyError [("pkgver", Json.str "115.0")] _).2 (Json.str "115.0") rfl rfl⟩

/-- C2 counterexample: the claim says `version` equals the `pkgver` value with
surrounding whitespace trimmed; on this concrete input with
`pkgver = " 115.0 "` the resulting `version` is the untrimmed `" 115.0 "`
(only `last_update` is stripped by the code). -/
theorem C2_counterexample :
    packageArchLinux
      (some (Json.obj [("pkgver", Json.str " 115.0 "),
                       ("last_update", Json.str " 2024-01-01 ")]))
      "extra" "firefox"
      = Except.ok ⟨"extra", "firefox", "ArchLinux", "", "", " 115.0 ",
          "2024-01-01"⟩ ∧
    " 115.0 " ≠ pyStrip " 115.0 " := by
  constructor
  · rfl
  · decide

/-- C2 (amended): for the ArchLinux variant, when the fetched body is a JSON
object with string fields `pkgver` and `last_update`, after update `version`
equals the `pkgver` value verbatim (not trimmed) and `last_updated` equals
the `last_update` value with surrounding whitespace trimmed. -/
theorem C2_arch_extraction (kvs : List (String × Json)) (pk lu : String)
    (st : PackageState)
    (hpk : pyDictGet kvs "pkgver" = some (Json.str pk))
    (hlu : pyDictGet kvs "last_update" = some (Json.str lu)) :
    archUpdate (some (Json.obj kvs)) st
      = Except.ok { st with version := pk, last_updated := pyStrip lu } := by
  simp [archUpdate, hpk, hlu, pyStrOfJson]

/-- C2 witness: the spec's own example, with the update applied to a freshly
constructed state. -/
theorem C2_witness :
    archUpdate
      (some (Json.obj [("pkgver", Json.str "115.0"),
                       ("last_update", Json.str " 2024-01-01 ")]))
      (initState "extra" "firefox" "ArchLinux" "" "")
      = Except.ok ⟨"extra", "firefox", "ArchLinux", "", "", "115.0",
          "2024-01-01"⟩ := by
  have h := C2_arch_extraction
    [("pkgver", Json.str "115.0"), ("last_update", Json.str " 2024-01-01 ")]
    "115.0" " 2024-01-01 " (initState "extra" "firefox" "ArchLinux" "" "")
    rfl rfl
  rw [h]
  exact congrArg Except.ok (by decide)

/-- C4: for every variant, a fetch that yields no content (modelled by the
`none` fetch result for a not-found status or transport failure) lets
construction complete without raising, with `version` and `last_updated`
still at their empty defaults. -/
theorem C4_no_content (repository name distro_release : String)
    (sp : Option String) :
    packageArchLinux none repository name
      = Except.ok ⟨repository, name, "ArchLinux", "", "", "", ""⟩ ∧
    packageDebian none repository name
      = Except.ok ⟨repository, name, "Debian", "", "", "", ""⟩ ∧
    packageFedora none repository name distro_release sp
      = Except.ok ⟨repository, name, "Fedora", distro_release, sp.getD name,
          "", ""⟩ ∧
    packageFlatHub none name
      = Except.ok ⟨"flathub", name, "flatpak", "", "", "", ""⟩ :=
  ⟨rfl, rfl, rfl, rfl⟩

/-- C3: for the regex-based variants (Debian, Fedora, FlatHub), whenever the
variant's version (and, for FlatHub, date) pattern finds no match in the
fetched body, the update leaves `version` and `last_updated` at their empty
defaults and returns normally (no exception).  The `regexSafe` hypotheses
state that the interpolated name / release contain no regex metacharacters,
the regime in which the literal-text pattern model is faithful to the
unescaped Python f-string patterns. -/
theorem C3_no_match (repository name distro_release : String)
    (sp : Option String) (html : List Char) :
    (regexSafe name = true →
      reSearch (debianA name) debianB html = none →
      packageDebian (some html) repository name
        = Except.ok ⟨repository, name, "Debian", "", "", "", ""⟩) ∧
    (regexSafe distro_release = true →
      reSearch (fedoraA distro_release) fedoraB html = none →
      packageFedora (some html) repository name distro_release sp
        = Except.ok ⟨repository, name, "Fedora", distro_release, sp.getD name,
            "", ""⟩) ∧
    (reSearch fhVersionA fhVersionB html = none →
      dateSearch html = none →
      packageFlatHub (some html) name
        = Except.ok ⟨"flathub", name, "flatpak", "", "", "", ""⟩) := by
  refine ⟨fun _ h => ?_, fun _ h => ?_, fun h1 h2 => ?_⟩
  · simp [packageDebian, debianUpdate, initState, h]
  · simp [packageFedora, fedoraUpdate, initState, h]
  · simp [packageFlatHub, flathubUpdate, initState, h1, h2]

/-- C3 witness: a concrete body matching none of the patterns, for all three
regex variants. -/
theorem C3_witness :
    packageDebian (some "hello".toList) "stable" "firefox"
      = Except.ok ⟨"stable", "firefox", "Debian", "", "", "", ""⟩ ∧
    packageFedora (some "hello".toList) "stable" "firefox" "37" none
      = Except.ok ⟨"stable", "firefox", "Fedora", "37", "firefox", "", ""⟩ ∧
    packageFlatHub (some "hello".toList) "org.mozilla.firefox"
      = Except.ok ⟨"flathub", "org.mozilla.firefox", "flatpak", "", "", "",
          ""⟩ :=
  ⟨(C3_no_match "stable" "firefox" "37" none "hello".toList).1
      (by decide) (by decide),
   (C3_no_match "stable" "firefox" "37" none "hello".toList).2.1
      (by decide) (by decide),
   (C3_no_match "stable" "org.mozilla.firefox" "37" none "hello".toList).2.2
      (by decide) (by decide)⟩

/-- C9: a Fedora package constructed without an explicit `distro_release`
gets release `"37"`, its `source_package` defaults to `name`, and the release
label carried by the state is exactly the one embedded in the
version-extraction pattern `<a href="fedora-37.html">`. -/
theorem C9_fedora_defaults (fetched : Option (List Char))
    (repository name : String) (st : PackageState)
    (h : packageFedoraDefault fetched repository name = Except.ok st) :
    st.distro_release = "37" ∧ st.source_package = name ∧
    fedoraA st.distro_release = "<a href=\"fedora-37.html\">".toList := by
  obtain ⟨hids, hsp⟩ := packageFedora_ids _ _ _ _ _ _ h
  have h4 : st.distro_release = "37" := by
    have := congrArg (fun x => x.2.2.2) hids
    simpa using this
  refine ⟨h4, by simpa using hsp, ?_⟩
  rw [h4]
  decide

/-- C9 witness: the default construction with a no-content fetch. -/
theorem C9_witness :
    (initState "stable" "firefox" "Fedora" "37" "firefox").distro_release
      = "37" ∧
    (initState "stable" "firefox" "Fedora" "37" "firefox").source_package
      = "firefox" ∧
    fedoraA (initState "stable" "firefox" "Fedora" "37"
        "firefox").distro_release
      = "<a href=\"fedora-37.html\">".toList :=
  C9_fedora_defaults none "stable" "firefox" _ rfl

/-- C10: giving both `--packages` and `--all` makes the `--all` selection
replace the `--packages` one entirely (the run is identical to a plain
`--all` run, whatever names were passed), and an invocation with none of
`-p`, `-a`, `-s` prints nothing and completes without error. -/
theorem C10_selection :
    (∀ (env : Env) (ps : List String),
      mainRun env (some ps) true none = mainRun env none true none) ∧
    (∀ env : Env, mainRun env none false none = Except.ok []) :=
  ⟨fun _ _ => rfl, fun _ => rfl⟩

/-- C5: for the FlatHub variant, when the fetched HTML body contains the
`<h3 class="my-0">Changes in version V</h3>` block (at the leftmost
occurrence of its opening literal, with `V` free of newlines and `<`) and the
`<div class="text-sm" title="M/D/YYYY">...</div>` block (at the leftmost
occurrence of its opening literal, with 1-2 digit month and day and 4-digit
year), after update `version` equals `V` and `last_updated` equals the date
reformatted as `YYYY-M-D` with the month and day digits kept verbatim. -/
theorem C5_flathub_extraction (name : String)
    (body p v m q mo d y t r : List Char)
    (hbody1 : body = p ++ fhVersionA ++ v ++ fhVersionB ++ m)
    (hp : ∀ i, i < p.length → fhVersionA.isPrefixOf (body.drop i) = false)
    (hv1 : ∀ c ∈ v, c ≠ '\n') (hv2 : ∀ c ∈ v, c ≠ '<')
    (hbody2 : body = q ++ fhDateA ++
      (mo ++ '/' :: d ++ '/' :: y ++ '"' :: '>' :: (t ++ fhCloseDiv ++ r)))
    (hq : ∀ i, i < q.length → fhDateA.isPrefixOf (body.drop i) = false)
    (hmo : mo.length = 1 ∨ mo.length = 2) (hmod : ∀ c ∈ mo, c.isDigit = true)
    (hdl : d.length = 1 ∨ d.length = 2) (hdd : ∀ c ∈ d, c.isDigit = true)
    (hy : y.length = 4) (hyd : ∀ c ∈ y, c.isDigit = true)
    (ht1 : ∀ c ∈ t, c ≠ '\n') (ht2 : ∀ c ∈ t, c ≠ '<') :
    packageFlatHub (some body) name
      = Except.ok ⟨"flathub", name, "flatpak", "", "", String.mk v,
          String.mk y ++ "-" ++ String.mk mo ++ "-" ++ String.mk d⟩ := by
  have hBc : fhVersionB = '<' :: "/h3>".toList := rfl
  have hv : reSearch fhVersionA fhVersionB body = some v := by
    rw [hbody1, hBc]
    refine reSearch_decomp fhVersionA '<' "/h3>".toList p v m
      (fun i hi => ?_) hv1 hv2
    rw [← hBc, ← hbody1]
    exact hp i hi
  have hdt : dateSearch body = some (mo, d, y) := by
    rw [hbody2]
    refine dateSearch_decomp q mo d y t r (fun i hi => ?_) hmo hmod hdl hdd
      hy hyd ht1 ht2
    rw [← hbody2]
    exact hq i hi
  simp [packageFlatHub, flathubUpdate, initState, hv, hdt]

/-- C5 witness: the spec's example shapes on a concrete HTML body. -/
theorem C5_witness :
    packageFlatHub
      (some ("<h3 class=\"my-0\">Changes in version 1.2.3</h3><div class=\"text-sm\" title=\"3/4/2024\"></div>".toList))
      "org.test"
      = Except.ok ⟨"flathub", "org.test", "flatpak", "", "", "1.2.3",
          "2024-3-4"⟩ := by
  have h := C5_flathub_extraction "org.test"
    ("<h3 class=\"my-0\">Changes in version 1.2.3</h3><div class=\"text-sm\" title=\"3/4/2024\"></div>".toList)
    [] ("1.2.3".toList)
    ("<div class=\"text-sm\" title=\"3/4/2024\"></div>".toList)
    ("<h3 class=\"my-0\">Changes in version 1.2.3</h3>".toList)
    ("3".toList) ("4".toList) ("2024".toList) [] []
    (by decide) (fun i hi => absurd hi (by simp)) (by decide) (by decide)
    (by decide) (by decide) (by decide) (by decide) (by decide) (by decide)
    (by decide) (by decide) (by decide) (by decide)
  rw [h]
  exact congrArg Except.ok (by decide)

/-- C6: for every ordered list of resolved packages the Reporter prints
exactly one header row (the titles `distro`, `repository`, `version`,
`last updated`, each left-justified to 15 characters), then one data row per
instance preceded by a 60-dash separator line, the data row consisting of
four 15-character-minimum left-justified columns whose first column is the
instance's `distro` and `distro_release` joined by a single space. -/
theorem C6_reporter (ps : List PackageState) :
    (pprintLines ps).length = 1 + 2 * ps.length ∧
    (pprintLines ps).get? 0
      = some "distro         repository     version        last updated   " ∧
    ∀ i, (h : i < ps.length) →
      (pprintLines ps).get? (1 + 2 * i)
        = some (String.mk (List.replicate 60 '-')) ∧
      (pprintLines ps).get? (2 + 2 * i)
        = some (pyLJust ((ps.get ⟨i, h⟩).distro ++ " "
              ++ (ps.get ⟨i, h⟩).distro_release) 15
            ++ pyLJust (ps.get ⟨i, h⟩).repository 15
            ++ pyLJust (ps.get ⟨i, h⟩).version 15
            ++ pyLJust (ps.get ⟨i, h⟩).last_updated 15) := by
  refine ⟨?_, ?_, ?_⟩
  · unfold pprintLines
    rw [List.length_cons, rowsLength]
    ring
  · rfl
  · intro i h
    obtain ⟨h1, h2⟩ := rowsGet ps i h
    constructor
    · have : 1 + 2 * i = (2 * i) + 1 := by ring
      rw [this]
      simpa [pprintLines, hlineStr] using h1
    · have : 2 + 2 * i = (2 * i + 1) + 1 := by ring
      rw [this]
      simpa [pprintLines, fmtRow] using h2

/-- C6 witness: the shape facts instantiated on a concrete two-row table. -/
theorem C6_witness :
    (pprintLines [⟨"extra", "firefox", "ArchLinux", "", "", "115.0", "2023-09-26"⟩,
        ⟨"flathub", "org.test", "flatpak", "", "", "1.2.3", "2024-3-4"⟩]).length = 5 ∧
    (pprintLines [⟨"extra", "firefox", "ArchLinux", "", "", "115.0", "2023-09-26"⟩,
        ⟨"flathub", "org.test", "flatpak", "", "", "1.2.3", "2024-3-4"⟩]).get? 3
      = some (String.mk (List.replicate 60 '-')) ∧
    (pprintLines [⟨"extra", "firefox", "ArchLinux", "", "", "115.0", "2023-09-26"⟩,
        ⟨"flathub", "org.test", "flatpak", "", "", "1.2.3", "2024-3-4"⟩]).get? 4
      = some (pyLJust ("flatpak" ++ " " ++ "") 15 ++ pyLJust "flathub" 15
          ++ pyLJust "1.2.3" 15 ++ pyLJust "2024-3-4" 15) := by
  refine ⟨?_, ?_, ?_⟩
  · exact (C6_reporter _).1
  · exact ((C6_reporter _).2.2 1 (by decide)).1
  · exact ((C6_reporter _).2.2 1 (by decide)).2

theorem firefoxStates_ids (env : Env) (g : List PackageState)
    (h : firefoxStates env = Except.ok g) :
    idsOf g = [("ArchLinux", "extra", "firefox", ""),
      ("Debian", "unstable", "firefox", ""), ("Debian", "testing", "firefox", ""),
      ("Debian", "stable", "firefox", ""), ("Fedora", "stable", "firefox", "37"),
      ("flatpak", "flathub", "org.mozilla.firefox", "")] := by
  unfold firefoxStates at h
  obtain ⟨p1, h1, h⟩ := exceptBind_ok.mp h
  obtain ⟨p2, h2, h⟩ := exceptBind_ok.mp h
  obtain ⟨p3, h3, h⟩ := exceptBind_ok.mp h
  obtain ⟨p4, h4, h⟩ := exceptBind_ok.mp h
  obtain ⟨p5, h5, h⟩ := exceptBind_ok.mp h
  obtain ⟨p6, h6, h⟩ := exceptBind_ok.mp h
  have hg : g = [p1, p2, p3, p4, p5, p6] := by
    simpa [pure, Except.pure, eq_comm] using h
  subst hg
  simp only [idsOf, List.map_cons, List.map_nil]
  rw [packageArchLinux_ids _ _ _ _ h1, packageDebian_ids _ _ _ _ h2,
    packageDebian_ids _ _ _ _ h3, packageDebian_ids _ _ _ _ h4,
    (packageFedora_ids _ _ _ _ _ _ h5).1, packageFlatHub_ids _ _ _ h6]

theorem thunderbirdStates_ids (env : Env) (g : List PackageState)
    (h : thunderbirdStates env = Except.ok g) :
    idsOf g = [("ArchLinux", "extra", "thunderbird", ""),
      ("Debian", "unstable", "thunderbird", ""),
      ("Debian", "testing", "thunderbird", ""),
      ("Debian", "stable", "thunderbird", ""),
      ("Fedora", "stable", "thunderbird", "37"),
      ("flatpak", "flathub", "org.mozilla.Thunderbird", "")] := by
  unfold thunderbirdStates at h
  obtain ⟨p1, h1, h⟩ := exceptBind_ok.mp h
  obtain ⟨p2, h2, h⟩ := exceptBind_ok.mp h
  obtain ⟨p3, h3, h⟩ := exceptBind_ok.mp h
  obtain ⟨p4, h4, h⟩ := exceptBind_ok.mp h
  obtain ⟨p5, h5, h⟩ := exceptBind_ok.mp h
  obtain ⟨p6, h6, h⟩ := exceptBind_ok.mp h
  have hg : g = [p1, p2, p3, p4, p5, p6] := by
    simpa [pure, Except.pure, eq_comm] using h
  subst hg
  simp only [idsOf, List.map_cons, List.map_nil]
  rw [packageArchLinux_ids _ _ _ _ h1, packageDebian_ids _ _ _ _ h2,
    packageDebian_ids _ _ _ _ h3, packageDebian_ids _ _ _ _ h4,
    (packageFedora_ids _ _ _ _ _ _ h5).1, packageFlatHub_ids _ _ _ h6]

theorem libreofficeStates_ids (env : Env) (g : List PackageState)
    (h : libreofficeStates env = Except.ok g) :
    idsOf g = [("ArchLinux", "extra", "libreoffice-fresh", ""),
      ("ArchLinux", "extra", "libreoffice-still", ""),
      ("Debian", "unstable", "libreoffice", ""),
      ("Debian", "testing", "libreoffice", ""),
      ("Debian", "stable", "libreoffice", ""),
      ("Fedora", "stable", "libreoffice", "37"),
      ("flatpak", "flathub", "org.libreoffice.LibreOffice", "")] := by
  unfold libreofficeStates at h
  obtain ⟨p1, h1, h⟩ := exceptBind_ok.mp h
  obtain ⟨p2, h2, h⟩ := exceptBind_ok.mp h
  obtain ⟨p3, h3, h⟩ := exceptBind_ok.mp h
  obtain ⟨p4, h4, h⟩ := exceptBind_ok.mp h
  obtain ⟨p5, h5, h⟩ := exceptBind_ok.mp h
  obtain ⟨p6, h6, h⟩ := exceptBind_ok.mp h
  obtain ⟨p7, h7, h⟩ := exceptBind_ok.mp h
  have hg : g = [p1, p2, p3, p4, p5, p6, p7] := by
    simpa [pure, Except.pure, eq_comm] using h
  subst hg
  simp only [idsOf, List.map_cons, List.map_nil]
  rw [packageArchLinux_ids _ _ _ _ h1, packageArchLinux_ids _ _ _ _ h2,
    packageDebian_ids _ _ _ _ h3, packageDebian_ids _ _ _ _ h4,
    packageDebian_ids _ _ _ _ h5, (packageFedora_ids _ _ _ _ _ _ h6).1,
    packageFlatHub_ids _ _ _ h7]

theorem inkscapeStates_ids (env : Env) (g : List PackageState)
    (h : inkscapeStates env = Except.ok g) :
    idsOf g = [("ArchLinux", "extra", "inkscape", ""),
      ("Debian", "unstable", "inkscape", ""),
      ("Debian", "testing", "inkscape", ""),
      ("Debian", "stable", "inkscape", ""),
      ("Fedora", "stable", "inkscape", "37"),
      ("flatpak", "flathub", "org.inkscape.Inkscape", "")] := by
  unfold inkscapeStates at h
  obtain ⟨p1, h1, h⟩ := exceptBind_ok.mp h
  obtain ⟨p2, h2, h⟩ := exceptBind_ok.mp h
  obtain ⟨p3, h3, h⟩ := exceptBind_ok.mp h
  obtain ⟨p4, h4, h⟩ := exceptBind_ok.mp h
  obtain ⟨p5, h5, h⟩ := exceptBind_ok.mp h
  obtain ⟨p6, h6, h⟩ := exceptBind_ok.mp h
  have hg : g = [p1, p2, p3, p4, p5, p6] := by
    simpa [pure, Except.pure, eq_comm] using h
  subst hg
  simp only [idsOf, List.map_cons, List.map_nil]
  rw [packageArchLinux_ids _ _ _ _ h1, packageDebian_ids _ _ _ _ h2,
    packageDebian_ids _ _ _ _ h3, packageDebian_ids _ _ _ _ h4,
    (packageFedora_ids _ _ _ _ _ _ h5).1, packageFlatHub_ids _ _ _ h6]

theorem mesaStates_ids (env : Env) (g : List PackageState)
    (h : mesaStates env = Except.ok g) :
    idsOf g = [("ArchLinux", "extra", "mesa", ""),
      ("Debian", "unstable", "mesa", ""), ("Debian", "testing", "mesa", ""),
      ("Debian", "stable", "mesa", ""),
      ("Fedora", "stable", "mesa-libGL", "37")] := by
  unfold mesaStates at h
  obtain ⟨p1, h1, h⟩ := exceptBind_ok.mp h
  obtain ⟨p2, h2, h⟩ := exceptBind_ok.mp h
  obtain ⟨p3, h3, h⟩ := exceptBind_ok.mp h
  obtain ⟨p4, h4, h⟩ := exceptBind_ok.mp h
  obtain ⟨p5, h5, h⟩ := exceptBind_ok.mp h
  have hg : g = [p1, p2, p3, p4, p5] := by
    simpa [pure, Except.pure, eq_comm] using h
  subst hg
  simp only [idsOf, List.map_cons, List.map_nil]
  rw [packageArchLinux_ids _ _ _ _ h1, packageDebian_ids _ _ _ _ h2,
    packageDebian_ids _ _ _ _ h3, packageDebian_ids _ _ _ _ h4,
    (packageFedora_ids _ _ _ _ _ _ h5).1]

/-- C7: a `-s TERM` invocation constructs exactly the fixed list of twelve
distro/repository combinations — six ArchLinux repositories, three Debian
repositories, two Fedora queries (releases 37 and 36 of repository stable)
and one FlatHub query — each using TERM verbatim as the package name, and
reports them in one Reporter invocation. -/
theorem C7_search (env : Env) (term : String) (ps : List PackageState)
    (h : searchStates env term = Except.ok ps) :
    idsOf ps = [("ArchLinux", "core", term, ""), ("ArchLinux", "extra", term, ""),
      ("ArchLinux", "community", term, ""), ("ArchLinux", "multilib", term, ""),
      ("ArchLinux", "testing", term, ""),
      ("ArchLinux", "community-testing", term, ""),
      ("Debian", "unstable", term, ""), ("Debian", "testing", term, ""),
      ("Debian", "stable", term, ""), ("Fedora", "stable", term, "37"),
      ("Fedora", "stable", term, "36"), ("flatpak", "flathub", term, "")] ∧
    mainRun env none false (some term) = Except.ok (pprintLines ps) := by
  have h0 := h
  unfold searchStates at h
  obtain ⟨p1, h1, h⟩ := exceptBind_ok.mp h
  obtain ⟨p2, h2, h⟩ := exceptBind_ok.mp h
  obtain ⟨p3, h3, h⟩ := exceptBind_ok.mp h
  obtain ⟨p4, h4, h⟩ := exceptBind_ok.mp h
  obtain ⟨p5, h5, h⟩ := exceptBind_ok.mp h
  obtain ⟨p6, h6, h⟩ := exceptBind_ok.mp h
  obtain ⟨p7, h7, h⟩ := exceptBind_ok.mp h
  obtain ⟨p8, h8, h⟩ := exceptBind_ok.mp h
  obtain ⟨p9, h9, h⟩ := exceptBind_ok.mp h
  obtain ⟨p10, h10, h⟩ := exceptBind_ok.mp h
  obtain ⟨p11, h11, h⟩ := exceptBind_ok.mp h
  obtain ⟨p12, h12, h⟩ := exceptBind_ok.mp h
  have hps : ps = [p1, p2, p3, p4, p5, p6, p7, p8, p9, p10, p11, p12] := by
    simpa [pure, Except.pure, eq_comm] using h
  subst hps
  constructor
  · simp only [idsOf, List.map_cons, List.map_nil]
    rw [packageArchLinux_ids _ _ _ _ h1, packageArchLinux_ids _ _ _ _ h2,
      packageArchLinux_ids _ _ _ _ h3, packageArchLinux_ids _ _ _ _ h4,
      packageArchLinux_ids _ _ _ _ h5, packageArchLinux_ids _ _ _ _ h6,
      packageDebian_ids _ _ _ _ h7, packageDebian_ids _ _ _ _ h8,
      packageDebian_ids _ _ _ _ h9, (packageFedora_ids _ _ _ _ _ _ h10).1,
      (packageFedora_ids _ _ _ _ _ _ h11).1, packageFlatHub_ids _ _ _ h12]
  · simp [mainRun, selectPackages, sectionLines, h0, Bind.bind, Except.bind,
      pure, Except.pure]

/-- C7 witness: the search run for `"foo"` in an environment where every
fetch yields no content. -/
theorem C7_witness :
    idsOf searchNoneStates
      = [("ArchLinux", "core", "foo", ""), ("ArchLinux", "extra", "foo", ""),
        ("ArchLinux", "community", "foo", ""),
        ("ArchLinux", "multilib", "foo", ""),
        ("ArchLinux", "testing", "foo", ""),
        ("ArchLinux", "community-testing", "foo", ""),
        ("Debian", "unstable", "foo", ""), ("Debian", "testing", "foo", ""),
        ("Debian", "stable", "foo", ""), ("Fedora", "stable", "foo", "37"),
        ("Fedora", "stable", "foo", "36"),
        ("flatpak", "flathub", "foo", "")] ∧
    mainRun noneEnv none false (some "foo")
      = Except.ok (pprintLines searchNoneStates) :=
  C7_search noneEnv "foo" searchNoneStates rfl

/-- C8: an `--all` invocation produces exactly one report section per entry
of the fixed software list, in order firefox, thunderbird, libreoffice,
inkscape, mesa, each section a labeled header line (a newline, the
capitalized name and a colon) followed by one Reporter invocation on that
software's hardcoded source list. -/
theorem C8_all (env : Env) (out : List String)
    (h : mainRun env none true none = Except.ok out) :
    ∃ g1 g2 g3 g4 g5,
      firefoxStates env = Except.ok g1 ∧
      thunderbirdStates env = Except.ok g2 ∧
      libreofficeStates env = Except.ok g3 ∧
      inkscapeStates env = Except.ok g4 ∧
      mesaStates env = Except.ok g5 ∧
      out = ("\nFirefox:" :: pprintLines g1)
        ++ ("\nThunderbird:" :: pprintLines g2)
        ++ ("\nLibreOffice:" :: pprintLines g3)
        ++ ("\nInkscape:" :: pprintLines g4)
        ++ ("\nMesa:" :: pprintLines g5) ∧
      idsOf g1 = [("ArchLinux", "extra", "firefox", ""),
        ("Debian", "unstable", "firefox", ""),
        ("Debian", "testing", "firefox", ""),
        ("Debian", "stable", "firefox", ""),
        ("Fedora", "stable", "firefox", "37"),
        ("flatpak", "flathub", "org.mozilla.firefox", "")] ∧
      idsOf g2 = [("ArchLinux", "extra", "thunderbird", ""),
        ("Debian", "unstable", "thunderbird", ""),
        ("Debian", "testing", "thunderbird", ""),
        ("Debian", "stable", "thunderbird", ""),
        ("Fedora", "stable", "thunderbird", "37"),
        ("flatpak", "flathub", "org.mozilla.Thunderbird", "")] ∧
      idsOf g3 = [("ArchLinux", "extra", "libreoffice-fresh", ""),
        ("ArchLinux", "extra", "libreoffice-still", ""),
        ("Debian", "unstable", "libreoffice", ""),
        ("Debian", "testing", "libreoffice", ""),
        ("Debian", "stable", "libreoffice", ""),
        ("Fedora", "stable", "libreoffice", "37"),
        ("flatpak", "flathub", "org.libreoffice.LibreOffice", "")] ∧
      idsOf g4 = [("ArchLinux", "extra", "inkscape", ""),
        ("Debian", "unstable", "inkscape", ""),
        ("Debian", "testing", "inkscape", ""),
        ("Debian", "stable", "inkscape", ""),
        ("Fedora", "stable", "inkscape", "37"),
        ("flatpak", "flathub", "org.inkscape.Inkscape", "")] ∧
      idsOf g5 = [("ArchLinux", "extra", "mesa", ""),
        ("Debian", "unstable", "mesa", ""),
        ("Debian", "testing", "mesa", ""),
        ("Debian", "stable", "mesa", ""),
        ("Fedora", "stable", "mesa-libGL", "37")] := by
  unfold mainRun at h
  simp only [Bind.bind, Except.bind, pure, Except.pure] at h
  obtain ⟨s1, hs1, h⟩ := exceptBind_ok.mp h
  obtain ⟨s2, hs2, h⟩ := exceptBind_ok.mp h
  obtain ⟨s3, hs3, h⟩ := exceptBind_ok.mp h
  obtain ⟨s4, hs4, h⟩ := exceptBind_ok.mp h
  obtain ⟨s5, hs5, h⟩ := exceptBind_ok.mp h
  obtain ⟨g1, hg1, he1⟩ := sectionLines_ok (by decide) hs1
  obtain ⟨g2, hg2, he2⟩ := sectionLines_ok (by decide) hs2
  obtain ⟨g3, hg3, he3⟩ := sectionLines_ok (by decide) hs3
  obtain ⟨g4, hg4, he4⟩ := sectionLines_ok (by decide) hs4
  obtain ⟨g5, hg5, he5⟩ := sectionLines_ok (by decide) hs5
  refine ⟨g1, g2, g3, g4, g5, hg1, hg2, hg3, hg4, hg5, ?_,
    firefoxStates_ids env g1 hg1, thunderbirdStates_ids env g2 hg2,
    libreofficeStates_ids env g3 hg3, inkscapeStates_ids env g4 hg4,
    mesaStates_ids env g5 hg5⟩
  subst he1 he2 he3 he4 he5
  simp only [Except.ok.injEq] at h
  subst h
  simp [List.append_assoc]

/-- C8 witness: the `--all` run in an environment where every fetch yields no
content. -/
theorem C8_witness :
    ∃ g1 g2 g3 g4 g5,
      firefoxStates noneEnv = Except.ok g1 ∧
      thunderbirdStates noneEnv = Except.ok g2 ∧
      libreofficeStates noneEnv = Except.ok g3 ∧
      inkscapeStates noneEnv = Except.ok g4 ∧
      mesaStates noneEnv = Except.ok g5 ∧
      (("\nFirefox:" :: pprintLines firefoxNoneStates)
        ++ ("\nThunderbird:" :: pprintLines thunderbirdNoneStates)
        ++ ("\nLibreOffice:" :: pprintLines libreofficeNoneStates)
        ++ ("\nInkscape:" :: pprintLines inkscapeNoneStates)
        ++ ("\nMesa:" :: pprintLines mesaNoneStates))
        = ("\nFirefox:" :: pprintLines g1)
          ++ ("\nThunderbird:" :: pprintLines g2)
          ++ ("\nLibreOffice:" :: pprintLines g3)
          ++ ("\nInkscape:" :: pprintLines g4)
          ++ ("\nMesa:" :: pprintLines g5) ∧
      idsOf g1 = [("ArchLinux", "extra", "firefox", ""),
        ("Debian", "unstable", "firefox", ""),
        ("Debian", "testing", "firefox", ""),
        ("Debian", "stable", "firefox", ""),
        ("Fedora", "stable", "firefox", "37"),
        ("flatpak", "flathub", "org.mozilla.firefox", "")] ∧
      idsOf g2 = [("ArchLinux", "extra", "thunderbird", ""),
        ("Debian", "unstable", "thunderbird", ""),
        ("Debian", "testing", "thunderbird", ""),
        ("Debian", "stable", "thunderbird", ""),
        ("Fedora", "stable", "thunderbird", "37"),
        ("flatpak", "flathub", "org.mozilla.Thunderbird", "")] ∧
      idsOf g3 = [("ArchLinux", "extra", "libreoffice-fresh", ""),
        ("ArchLinux", "extra", "libreoffice-still", ""),
        ("Debian", "unstable", "libreoffice", ""),
        ("Debian", "testing", "libreoffice", ""),
        ("Debian", "stable", "libreoffice", ""),
        ("Fedora", "stable", "libreoffice", "37"),
        ("flatpak", "flathub", "org.libreoffice.LibreOffice", "")] ∧
      idsOf g4 = [("ArchLinux", "extra", "inkscape", ""),
        ("Debian", "unstable", "inkscape", ""),
        ("Debian", "testing", "inkscape", ""),
        ("Debian", "stable", "inkscape", ""),
        ("Fedora", "stable", "inkscape", "37"),
        ("flatpak", "flathub", "org.inkscape.Inkscape", "")] ∧
      idsOf g5 = [("ArchLinux", "extra", "mesa", ""),
        ("Debian", "unstable", "mesa", ""),
        ("Debian", "testing", "mesa", ""),
        ("Debian", "stable", "mesa", ""),
        ("Fedora", "stable", "mesa-libGL", "37")] :=
  C8_all noneEnv
    (("\nFirefox:" :: pprintLines firefoxNoneStates)
      ++ ("\nThunderbird:" :: pprintLines thunderbirdNoneStates)
      ++ ("\nLibreOffice:" :: pprintLines libreofficeNoneStates)
      ++ ("\nInkscape:" :: pprintLines inkscapeNoneStates)
      ++ ("\nMesa:" :: pprintLines mesaNoneStates)) rfl
